import Mathlib

/-!
Shallow embedding of the composite-calculation graph engine:
`src/frequencies.py`, `src/inputs.py`, `src/nodes.py`, `src/graphs.py`.

Machine floats in the source only ever carry small integral constants in the
specified scenarios, so series values and constants are modelled as `Rat`.
Python exceptions are modelled as an explicit error type `Err`, tagged with
the Python exception class (`ValueError`, `TypeError`, ...) where the engine
distinguishes them (`_traverse_graph` catches only `ValueError`).
-/

namespace CompCalc

/-! ### frequencies.py : FreqStr -/

/-- `FreqStr`: the four available frequencies `D`, `M`, `Q`, `A`. -/
inductive FreqStr where
  | D
  | M
  | Q
  | A
deriving DecidableEq, Repr, Fintype

/-- `FreqStr.numbervalue`: maps a frequency to a number for ordering. -/
def FreqStr.numbervalue : FreqStr → Nat
  | .D => 1
  | .M => 2
  | .Q => 3
  | .A => 4

/-- Python `__lt__` on `FreqStr`. -/
def FreqStr.pylt (a b : FreqStr) : Bool := decide (a.numbervalue < b.numbervalue)

/-- Python `__gt__` on `FreqStr`. -/
def FreqStr.pygt (a b : FreqStr) : Bool := decide (b.numbervalue < a.numbervalue)

/-- Python `__le__` on `FreqStr`. -/
def FreqStr.pyle (a b : FreqStr) : Bool := decide (a.numbervalue ≤ b.numbervalue)

/-- Python `__ge__` on `FreqStr`. -/
def FreqStr.pyge (a b : FreqStr) : Bool := decide (b.numbervalue ≤ a.numbervalue)

/-- One step of Python `max` over a list: keep the running value unless the
next item is strictly greater (`__gt__`). -/
def pymaxStep (cur x : FreqStr) : FreqStr := if x.pygt cur then x else cur

/-- Python `max([...])` on a non-empty list of `FreqStr`, first element split off. -/
def pymax (f : FreqStr) (fs : List FreqStr) : FreqStr := fs.foldl pymaxStep f

/-- One step of Python `min` over a list: keep the running value unless the
next item is strictly smaller (`__lt__`). -/
def pyminStep (cur x : FreqStr) : FreqStr := if x.pylt cur then x else cur

/-- Python `min([...])` on a non-empty list of `FreqStr`, first element split off. -/
def pymin (f : FreqStr) (fs : List FreqStr) : FreqStr := fs.foldl pyminStep f

/-! ### Errors

Each constructor corresponds to one `raise` site in the source. `ErrClass`
records the Python exception class, which matters because
`CompositeCalculation._traverse_graph` catches only `ValueError`. -/

/-- Python exception classes distinguished by the engine. -/
inductive ErrClass where
  | valueError
  | typeError
  | keyError
  | indexError
  | attributeError
  | other
deriving DecidableEq, Repr

/-- Errors raised by the embedded code; one constructor per `raise` site. -/
inductive Err where
  /-- `FrequencyHandler.output_frequency`: `TypeError("Accepts exactly n inputs.")`. -/
  | arityTypeError (expected got : Nat)
  /-- `CalcInput.check_input_number`: `ValueError("Number of inputs expected is: n.")`. -/
  | inputCountError (expected got : Nat)
  /-- `CalcInput.check_input_types`: `TypeError("Input is not of type ...")`. -/
  | typeMismatch
  /-- `IdenticalFrequencies.output_frequency`: `ValueError("Needs identical frequencies...")`. -/
  | incompatibleFrequencies
  /-- `DownsampleFrequency.output_frequency`: `ValueError("Can only aggregate to higher frequency.")`. -/
  | invalidAggregation
  /-- `input_freqs[0]` on an empty tuple: `IndexError`. -/
  | indexError
  /-- Python `max`/`min` of an empty sequence: `ValueError`. -/
  | emptySequence
  /-- `functools.reduce` of an empty sequence: `TypeError`. -/
  | emptyReduce
  /-- `dataframe[name]` with an absent column: `KeyError`. -/
  | missingColumn (name : String)
  /-- `args['input_idx']` in `get_sorted_node_predecessors` on an edge
  without that key: `KeyError`. -/
  | missingInputIdx
  /-- `args['output_idx']` in `get_sorted_node_successors` on an edge
  without that key: `KeyError`. -/
  | missingOutputIdx
  /-- `input_frequencies[node.ts_name]` with an absent name: `KeyError`. -/
  | missingFrequency (name : String)
  /-- `node.ts_name` on a node without that attribute: `AttributeError`. -/
  | attributeError
  /-- `FreqStr(x)` on a value outside the enumeration: `ValueError`. -/
  | freqConversion
  /-- wrong number of positional arguments for a fixed-signature method: `TypeError`. -/
  | signature (expected got : Nat)
  /-- an edge payload read that found `None` (unreachable from the frontier). -/
  | missingInput
  /-- a node id with no associated calculation object (unreachable). -/
  | unknownNode
  /-- `_traverse_graph`: `ValueError("Problem occured when evaluating node ...")`. -/
  | nodeEvaluation (node : Nat) (inner : Err)
  /-- `_traverse_graph`: `ValueError("Couldn't reach the final node.")`. -/
  | graphIncomplete
  /-- `output_node` property: `ValueError("The graph needs to have exactly one output node...")`. -/
  | outputNodeCount (n : Nat)
deriving DecidableEq, Repr

/-- The Python exception class of each error. -/
def Err.errClass : Err → ErrClass
  | .arityTypeError _ _ => .typeError
  | .inputCountError _ _ => .valueError
  | .typeMismatch => .typeError
  | .incompatibleFrequencies => .valueError
  | .invalidAggregation => .valueError
  | .indexError => .indexError
  | .emptySequence => .valueError
  | .emptyReduce => .typeError
  | .missingColumn _ => .keyError
  | .missingInputIdx => .keyError
  | .missingOutputIdx => .keyError
  | .missingFrequency _ => .keyError
  | .attributeError => .attributeError
  | .freqConversion => .valueError
  | .signature _ _ => .typeError
  | .missingInput => .other
  | .unknownNode => .other
  | .nodeEvaluation _ _ => .valueError
  | .graphIncomplete => .valueError
  | .outputNodeCount _ => .valueError

/-- True exactly for the `NodeEvaluationError` wrapper raised in `_traverse_graph`. -/
def Err.isNodeEvaluation : Err → Bool
  | .nodeEvaluation _ _ => true
  | _ => false

/-! ### frequencies.py : handlers -/

/-- `PassthroughFrequency.output_frequency`: the method signature takes exactly
one frequency and returns it unchanged. -/
def passthroughFrequency (fs : List FreqStr) : Except Err FreqStr :=
  match fs with
  | [f] => .ok f
  | _ => .error (.signature 1 fs.length)

/-- Body of `IdenticalFrequencies.output_frequency` after the arity check:
`set(input_freqs)` must have at most one element, then `input_freqs[0]`. -/
def identicalFrequenciesBody (fs : List FreqStr) : Except Err FreqStr :=
  if 1 < fs.dedup.length then .error .incompatibleFrequencies
  else
    match fs with
    | [] => .error .indexError
    | f :: _ => .ok f

/-- `IdenticalFrequencies(n).output_frequency`: arity check first (a
`TypeError` from the abstract superclass when `n` is fixed), then the
identical-frequencies check. -/
def identicalFrequencies (n : Option Nat) (fs : List FreqStr) : Except Err FreqStr :=
  match n with
  | some k =>
      if fs.length = k then identicalFrequenciesBody fs
      else .error (.arityTypeError k fs.length)
  | none => identicalFrequenciesBody fs

/-- `CoarsestFrequency.output_frequency`: `max` of the inputs; Python `max`
of an empty sequence raises `ValueError`. No arity constraint. -/
def coarsestFrequency (fs : List FreqStr) : Except Err FreqStr :=
  match fs with
  | [] => .error .emptySequence
  | f :: rest => .ok (pymax f rest)

/-- `FinestFrequency.output_frequency`: `min` of the inputs; Python `min`
of an empty sequence raises `ValueError`. No arity constraint. -/
def finestFrequency (fs : List FreqStr) : Except Err FreqStr :=
  match fs with
  | [] => .error .emptySequence
  | f :: rest => .ok (pymin f rest)

/-- `DownsampleFrequency(target).output_frequency`: the method signature takes
exactly one frequency; fails with `ValueError` when the input is strictly
coarser than the target, else returns the target. -/
def downsampleFrequency (target : FreqStr) (fs : List FreqStr) : Except Err FreqStr :=
  match fs with
  | [f] => if f.pygt target then .error .invalidAggregation else .ok target
  | _ => .error (.signature 1 fs.length)

/-! ### Data model for pandas values

A `pandas.Series` is modelled by its optional name and its column of values;
the specified scenarios only combine index-aligned series, so alignment is
left implicit and elementwise operations act positionally. A `DataFrame` is a
list of named columns. `PyVal` is the dynamically typed payload travelling
along edges: either pass's intermediate value, or the Python `list` the
traversal wraps results in. -/

/-- A `pandas.Series`: optional name plus values. -/
structure Series where
  name : Option String
  data : List Rat
deriving DecidableEq, Repr

/-- A dynamically typed Python value as it appears on graph edges. -/
inductive PyVal where
  | series (s : Series)
  | frame (cols : List (String × List Rat))
  | freq (f : FreqStr)
  | pylist (xs : List PyVal)
deriving Repr

mutual

/-- Boolean equality on `PyVal` (structural). -/
def PyVal.beq : PyVal → PyVal → Bool
  | .series s, .series t => decide (s = t)
  | .frame a, .frame b => decide (a = b)
  | .freq a, .freq b => decide (a = b)
  | .pylist xs, .pylist ys => PyVal.beqList xs ys
  | _, _ => false

/-- Boolean equality on lists of `PyVal`. -/
def PyVal.beqList : List PyVal → List PyVal → Bool
  | [], [] => true
  | x :: xs, y :: ys => PyVal.beq x y && PyVal.beqList xs ys
  | _, _ => false

end

mutual

theorem PyVal.beq_eq : (a b : PyVal) → (PyVal.beq a b = true ↔ a = b)
  | .series _, .series _ => by simp [PyVal.beq]
  | .series _, .frame _ => by simp [PyVal.beq]
  | .series _, .freq _ => by simp [PyVal.beq]
  | .series _, .pylist _ => by simp [PyVal.beq]
  | .frame _, .series _ => by simp [PyVal.beq]
  | .frame _, .frame _ => by simp [PyVal.beq]
  | .frame _, .freq _ => by simp [PyVal.beq]
  | .frame _, .pylist _ => by simp [PyVal.beq]
  | .freq _, .series _ => by simp [PyVal.beq]
  | .freq _, .frame _ => by simp [PyVal.beq]
  | .freq _, .freq _ => by simp [PyVal.beq]
  | .freq _, .pylist _ => by simp [PyVal.beq]
  | .pylist _, .series _ => by simp [PyVal.beq]
  | .pylist _, .frame _ => by simp [PyVal.beq]
  | .pylist _, .freq _ => by simp [PyVal.beq]
  | .pylist xs, .pylist ys => by
      rw [show PyVal.beq (.pylist xs) (.pylist ys) = PyVal.beqList xs ys from rfl,
        PyVal.beqList_eq xs ys]
      simp

theorem PyVal.beqList_eq : (xs ys : List PyVal) → (PyVal.beqList xs ys = true ↔ xs = ys)
  | [], [] => by simp [PyVal.beqList]
  | [], _ :: _ => by simp [PyVal.beqList]
  | _ :: _, [] => by simp [PyVal.beqList]
  | x :: xs, y :: ys => by
      rw [show PyVal.beqList (x :: xs) (y :: ys) = (PyVal.beq x y && PyVal.beqList xs ys)
        from rfl]
      rw [Bool.and_eq_true, PyVal.beq_eq x y, PyVal.beqList_eq xs ys]
      simp

end

instance : DecidableEq PyVal := fun a b => decidable_of_iff _ (PyVal.beq_eq a b)

instance {ε α : Type} [DecidableEq ε] [DecidableEq α] : DecidableEq (Except ε α)
  | .ok a, .ok b => decidable_of_iff (a = b) (by simp)
  | .ok _, .error _ => isFalse (by simp)
  | .error _, .ok _ => isFalse (by simp)
  | .error a, .error b => decidable_of_iff (a = b) (by simp)

/-- pandas result-name rule for a binary series operation: the common name if
both operands agree, else no name. -/
def combineNames (a b : Option String) : Option String :=
  if a = b then a else none

/-- Elementwise sum of two index-aligned series (pandas `+`). -/
def seriesAdd (s t : Series) : Series :=
  ⟨combineNames s.name t.name, List.zipWith (· + ·) s.data t.data⟩

/-- Elementwise difference of two index-aligned series (pandas `-`). -/
def seriesSub (s t : Series) : Series :=
  ⟨combineNames s.name t.name, List.zipWith (· - ·) s.data t.data⟩

/-- Series plus scalar (pandas broadcasting; keeps the name). -/
def seriesAddConst (s : Series) (c : Rat) : Series :=
  ⟨s.name, s.data.map (· + c)⟩

/-- Series minus scalar (pandas broadcasting; keeps the name). -/
def seriesSubConst (s : Series) (c : Rat) : Series :=
  ⟨s.name, s.data.map (· - c)⟩

/-- `dataframe[name]`: find a column by name. -/
def lookupCol (cols : List (String × List Rat)) (name : String) : Option (List Rat) :=
  (cols.find? fun p => p.1 = name).map (·.2)

/-! ### nodes.py : calculation units

Only the node kinds exercised by the specified graph scenarios are embedded:
`Input`, `Output`, `Add`, `Subtract`. -/

/-- The calculation unit borne by a node (`nodes.py` classes with their
constructor arguments). -/
inductive NodeKind where
  | input (tsName : String)
  | output (tsName : String)
  | add (constFloat : Rat)
  | sub (constFloat : Rat)
deriving DecidableEq, Repr

/-- `check_input_order` class attribute: only `Subtract` sets it. -/
def NodeKind.checkInputOrder : NodeKind → Bool
  | .sub _ => true
  | _ => false

/-- `check_output_order` class attribute: no embedded node sets it. -/
def NodeKind.checkOutputOrder : NodeKind → Bool
  | _ => false

/-- `ts_name` attribute where present (`Input`, `Output`). -/
def NodeKind.tsNameOf : NodeKind → Option String
  | .input nm => some nm
  | .output nm => some nm
  | _ => none

/-- Extract a series from each value (the operands of series arithmetic). -/
def asSeriesList (vs : List PyVal) : Option (List Series) :=
  vs.mapM fun v => match v with | .series s => some s | _ => none

/-- Extract a frequency from each value (`FreqStr(x)` conversion; anything
else raises `ValueError` in Python). -/
def asFreqList (vs : List PyVal) : Option (List FreqStr) :=
  vs.mapM fun v => match v with | .freq f => some f | _ => none

/-- `Input.compute(dataframe)`: the method takes exactly one argument, which
`SingleDataFrameInput` requires to be a dataframe; extracts the named column
(`KeyError` when absent). -/
def inputCompute (tsName : String) (inputs : List PyVal) : Except Err PyVal :=
  match inputs with
  | [v] =>
      match v with
      | .frame cols =>
          match lookupCol cols tsName with
          | some data => .ok (.series ⟨some tsName, data⟩)
          | none => .error (.missingColumn tsName)
      | _ => .error .typeMismatch
  | _ => .error (.signature 1 inputs.length)

/-- `Output.compute(time_series)`: exactly one argument, required to be a
series by `SingleSeriesInput`; returns a copy renamed to `ts_name`. -/
def outputCompute (tsName : String) (inputs : List PyVal) : Except Err PyVal :=
  match inputs with
  | [v] =>
      match v with
      | .series s => .ok (.series ⟨some tsName, s.data⟩)
      | _ => .error .typeMismatch
  | _ => .error (.signature 1 inputs.length)

/-- `Add.compute(*ts_n)`: left fold of pandas `+` over the inputs, plus the
constant; `reduce` of an empty sequence raises `TypeError`. `Add.compute`
performs no input validation itself; a non-series operand is modelled as the
`TypeError` pandas arithmetic would raise. -/
def addCompute (c : Rat) (inputs : List PyVal) : Except Err PyVal :=
  match asSeriesList inputs with
  | none => .error .typeMismatch
  | some [] => .error .emptyReduce
  | some (s :: rest) => .ok (.series (seriesAddConst (rest.foldl seriesAdd s) c))

/-- `Subtract.compute(*inputs)`: `check_inputs` first (`NSeriesInput(n=2)`:
a `ValueError` on wrong count, a `TypeError` on a non-series), then
`ts_1 - ts_2 - const_float`. -/
def subCompute (c : Rat) (inputs : List PyVal) : Except Err PyVal :=
  if inputs.length = 2 then
    match asSeriesList inputs with
    | some [s, t] => .ok (.series (seriesSubConst (seriesSub s t) c))
    | _ => .error .typeMismatch
  else .error (.inputCountError 2 inputs.length)

/-- `node.output_frequency(*input_freqs)`: dispatch to the node's frequency
handler (`Passthrough` for `Input`/`Output`, `IdenticalFrequencies()` for
`Add`, `IdenticalFrequencies(n=2)` for `Subtract`). -/
def nodeOutputFrequency (k : NodeKind) (inputs : List PyVal) : Except Err PyVal :=
  match asFreqList inputs with
  | none => .error .freqConversion
  | some fs =>
      (match k with
       | .input _ => passthroughFrequency fs
       | .output _ => passthroughFrequency fs
       | .add _ => identicalFrequencies none fs
       | .sub _ => identicalFrequencies (some 2) fs).map .freq

/-- The two traversal methods dispatched by name in `_traverse_graph`. -/
inductive Method where
  | compute
  | outputFrequency
deriving DecidableEq, Repr

/-- `getattr(node, method_name)(*inputs)`. -/
def nodeEval (k : NodeKind) (m : Method) (inputs : List PyVal) : Except Err PyVal :=
  match m with
  | .compute =>
      match k with
      | .input nm => inputCompute nm inputs
      | .output nm => outputCompute nm inputs
      | .add c => addCompute c inputs
      | .sub c => subCompute c inputs
  | .outputFrequency => nodeOutputFrequency k inputs

/-! ### graphs.py : CompositeCalculation

Node objects are identity-addressed in Python; here each node is a `Nat` id
with its calculation unit recorded in `Graph.kinds`. Edges keep the networkx
insertion order, which also fixes the node enumeration order (`self.nodes`,
`self.pred`, `self.succ` all iterate in insertion order). The per-pass edge
attribute (`'compute'` / `'output_frequency'`) is an `EState`: one optional
payload per edge, positionally aligned with `Graph.edges`; each pass clears
it before use, so a single slot suffices for both keys. -/

/-- An edge of the calculation graph with its optional metadata
(`input_idx` / `output_idx`). -/
structure GEdge where
  src : Nat
  tgt : Nat
  inputIdx : Option Int := none
  outputIdx : Option Int := none
deriving DecidableEq, Repr

/-- `CompositeCalculation`: the edge list (insertion order) plus the
calculation unit of each node id. -/
structure Graph where
  edges : List GEdge
  kinds : List (Nat × NodeKind)
deriving DecidableEq, Repr

/-- Edge payload state for one pass: one optional value per edge,
aligned with `Graph.edges`. -/
abbrev EState := List (Option PyVal)

/-- Append a node if not yet present (networkx `add_edge` node bookkeeping). -/
def addNode (acc : List Nat) (n : Nat) : List Nat :=
  if n ∈ acc then acc else acc ++ [n]

/-- `self.nodes`: nodes in insertion order, sources before targets. -/
def Graph.nodeList (g : Graph) : List Nat :=
  g.edges.foldl (fun acc e => addNode (addNode acc e.src) e.tgt) []

/-- The calculation unit attached to a node id. -/
def Graph.kindOf (g : Graph) (n : Nat) : Option NodeKind :=
  (g.kinds.find? fun p => p.1 = n).map (·.2)

/-- Incoming edges of a node, paired with their position in the edge list
(`self.pred[node]` iterates in edge insertion order). -/
def Graph.predEdges (g : Graph) (n : Nat) : List (Nat × GEdge) :=
  g.edges.enum.filter fun p => p.2.tgt = n

/-- Outgoing edges of a node, paired with their position in the edge list
(`self.succ[node]` iterates in edge insertion order). -/
def Graph.succEdges (g : Graph) (n : Nat) : List (Nat × GEdge) :=
  g.edges.enum.filter fun p => p.2.src = n

/-- Stable insertion into a key-sorted list, placing the new element after
equal keys (the order Python's stable `sorted` produces). -/
def insertByKey (key : Nat × GEdge → Int) (x : Nat × GEdge) :
    List (Nat × GEdge) → List (Nat × GEdge)
  | [] => [x]
  | y :: ys => if key y ≤ key x then y :: insertByKey key x ys else x :: y :: ys

/-- Stable sort by key (Python `sorted(..., key=...)`). -/
def stableSortByKey (key : Nat × GEdge → Int) (l : List (Nat × GEdge)) :
    List (Nat × GEdge) :=
  l.foldl (fun acc x => insertByKey key x acc) []

/-- `check_input_order` of the node's calculation unit. -/
def Graph.checkInputOrderOf (g : Graph) (n : Nat) : Bool :=
  match g.kindOf n with
  | some k => k.checkInputOrder
  | none => false

/-- `check_output_order` of the node's calculation unit. -/
def Graph.checkOutputOrderOf (g : Graph) (n : Nat) : Bool :=
  match g.kindOf n with
  | some k => k.checkOutputOrder
  | none => false

/-- `get_sorted_node_predecessors`: when the node checks input order, build
the `{input_node: args['input_idx']}` dict — raising `KeyError` if any
incoming edge lacks `input_idx` — and sort by it (the `getD` key is only
evaluated once every index is known present); otherwise insertion order. -/
def Graph.sortedPredEdges (g : Graph) (n : Nat) : Except Err (List (Nat × GEdge)) :=
  if g.checkInputOrderOf n then
    if (g.predEdges n).all (fun p => p.2.inputIdx.isSome) then
      .ok (stableSortByKey (fun p => p.2.inputIdx.getD 0) (g.predEdges n))
    else .error .missingInputIdx
  else .ok (g.predEdges n)

/-- `get_sorted_node_successors`: symmetric to `sortedPredEdges`, keyed by
`output_idx`, with the corresponding `KeyError`. -/
def Graph.sortedSuccEdges (g : Graph) (n : Nat) : Except Err (List (Nat × GEdge)) :=
  if g.checkOutputOrderOf n then
    if (g.succEdges n).all (fun p => p.2.outputIdx.isSome) then
      .ok (stableSortByKey (fun p => p.2.outputIdx.getD 0) (g.succEdges n))
    else .error .missingOutputIdx
  else .ok (g.succEdges n)

/-- `_get_predecessor_edge_information`: payloads of the sorted incoming
edges; a `KeyError` from the sorting propagates. -/
def gatherInputs (g : Graph) (s : EState) (n : Nat) : Except Err (List (Option PyVal)) :=
  (g.sortedPredEdges n).map fun l => l.map fun p => s.getD p.1 none

/-- `_update_successor_edge_information`: `zip` the sorted outgoing edges with
the provided values — edges beyond the number of values keep their payload;
a `KeyError` from the sorting propagates. -/
def updateSuccessorEdgeInformation (g : Graph) (s : EState) (n : Nat)
    (values : List PyVal) : Except Err EState :=
  (g.sortedSuccEdges n).map fun succs =>
    (succs.zip values).foldl (fun st pv => st.set pv.1.1 (some pv.2)) s

/-- All incoming edges of `n` are populated. -/
def inputsReady (g : Graph) (s : EState) (n : Nat) : Bool :=
  (g.predEdges n).all fun p => (s.getD p.1 none).isSome

/-- All outgoing edges of `n` are populated (`node_visited`). -/
def nodeVisited (g : Graph) (s : EState) (n : Nat) : Bool :=
  (g.succEdges n).all fun p => (s.getD p.1 none).isSome

/-- `_unvisited_nodes_with_all_inputs`: the frontier. Python materialises a
`set` and lists it in unspecified order; the embedding keeps the node
insertion order. -/
def unvisitedNodesWithAllInputs (g : Graph) (s : EState) (final : Nat) : List Nat :=
  g.nodeList.filter fun n => inputsReady g s n && (!nodeVisited g s n || n = final)

/-- `input_nodes` property: nodes without predecessors, in insertion order. -/
def Graph.inputNodes (g : Graph) : List Nat :=
  g.nodeList.filter fun n => (g.predEdges n).isEmpty

/-- `output_node` property: the unique node without successors, else a
`ValueError`. -/
def Graph.outputNode (g : Graph) : Except Err Nat :=
  match g.nodeList.filter (fun n => (g.succEdges n).isEmpty) with
  | [n] => .ok n
  | l => .error (.outputNodeCount l.length)

/-- `_clear_edge_info`: reset every edge payload of the pass to `None`. -/
def clearEdgeInfo (g : Graph) (_s : EState) : EState :=
  List.replicate g.edges.length none

/-- Whether the graph has an edge from `u` to `v`. -/
def Graph.hasEdge (g : Graph) (u v : Nat) : Bool :=
  g.edges.any fun e => e.src = u ∧ e.tgt = v

/-- `getattr(node, method_name)(*inputs)` for a node id. -/
def evalNodeById (g : Graph) (m : Method) (n : Nat) (inputs : List PyVal) :
    Except Err PyVal :=
  match g.kindOf n with
  | some k => nodeEval k m inputs
  | none => .error .unknownNode

/-- The `except ValueError` clause of `_traverse_graph`: only a `ValueError`
is re-raised wrapped with the offending node's identity; every other
exception class propagates unchanged. -/
def wrapNodeError (n : Nat) (e : Err) : Err :=
  if e.errClass = .valueError then .nodeEvaluation n e else e

/-- `if not isinstance(calculation_results, list): [calculation_results]`. -/
def pyToList : PyVal → List PyVal
  | .pylist xs => xs
  | v => [v]

/-- The inner `for node in computable_nodes` loop of one fixpoint round:
evaluate each frontier node in turn; a non-final node stages its results onto
its successors, the final node captures its results and breaks. Only the node
method call sits inside the `try` — a `KeyError` from edge sorting (either in
gathering or in staging) propagates unwrapped. -/
def processNodes (g : Graph) (m : Method) (final : Nat) :
    List Nat → EState → Except Err (EState × Option (List PyVal))
  | [], s => .ok (s, none)
  | n :: rest, s =>
      match gatherInputs g s n with
      | .error e => .error e
      | .ok rawInputs =>
          match rawInputs.mapM id with
          | none => .error .missingInput
          | some inputs =>
              match evalNodeById g m n inputs with
              | .error e => .error (wrapNodeError n e)
              | .ok res =>
                  let results := pyToList res
                  if n = final then .ok (s, some results)
                  else
                    match updateSuccessorEdgeInformation g s n results with
                    | .error e => .error e
                    | .ok s2 => processNodes g m final rest s2

/-- The bounded `while` loop of `_traverse_graph`: recompute the frontier and
run a round while the frontier is non-empty and iterations remain; `found`
carries the latest captured final-node results (`calculation_results` at a
`break`). Also returns the number of executed rounds. -/
def traverseLoop (g : Graph) (m : Method) (final : Nat) :
    Nat → EState → Option (List PyVal) →
    Except Err (Option (List PyVal) × EState) × Nat
  | 0, s, found => (.ok (found, s), 0)
  | fuel + 1, s, found =>
      match unvisitedNodesWithAllInputs g s final with
      | [] => (.ok (found, s), 0)
      | n :: ns =>
          match processNodes g m final (n :: ns) s with
          | .error e => (.error e, 1)
          | .ok (s1, res) =>
              let found1 := match res with | some r => some r | none => found
              let out := traverseLoop g m final fuel s1 found1
              (out.1, out.2 + 1)

/-- `_traverse_graph(method_name, max_iter=10)`: resolve the output node, run
the bounded fixpoint loop, fail with the `GraphIncomplete` `ValueError` when
the final node was never reached, else return the captured result list (a
Python `list` value). -/
def traverseGraph (g : Graph) (m : Method) (maxIter : Nat) (s : EState) :
    Except Err PyVal × EState × Nat :=
  match g.outputNode with
  | .error e => (.error e, s, 0)
  | .ok final =>
      match traverseLoop g m final maxIter s none with
      | (.error e, rounds) => (.error e, s, rounds)
      | (.ok (some res, s1), rounds) => (.ok (.pylist res), s1, rounds)
      | (.ok (none, s1), rounds) => (.error .graphIncomplete, s1, rounds)

/-- The seeding loop shared by both passes: invoke each input node with its
externally supplied value and stage the result through
`_update_successor_edge_information` with the singleton `[calculation_results]`. -/
def seedLoop (g : Graph) (seedEval : NodeKind → Except Err PyVal) :
    List Nat → EState → Except Err EState
  | [], s => .ok s
  | n :: rest, s =>
      match g.kindOf n with
      | none => .error .unknownNode
      | some k =>
          match seedEval k with
          | .error e => .error e
          | .ok res =>
              match updateSuccessorEdgeInformation g s n [res] with
              | .error e => .error e
              | .ok s2 => seedLoop g seedEval rest s2

/-- The reset-and-seed prefix of `compute`: clear the edge payloads, then
`node.compute(input_data)` for every input node. (`_clear_cache` only resets
the diagnostic per-node result cache, which carries no behaviour here.) -/
def Graph.seedCompute (g : Graph) (inputData : List (String × List Rat))
    (s : EState) : Except Err EState :=
  seedLoop g (fun k => nodeEval k .compute [.frame inputData]) g.inputNodes
    (clearEdgeInfo g s)

/-- `compute(input_data)`: seed, then traverse with the `compute` method.
Returns the result, the final edge state and the number of fixpoint rounds. -/
def Graph.compute (g : Graph) (inputData : List (String × List Rat))
    (s : EState) : Except Err PyVal × EState × Nat :=
  match g.seedCompute inputData s with
  | .error e => (.error e, clearEdgeInfo g s, 0)
  | .ok s1 => traverseGraph g .compute 10 s1

/-- The reset-and-seed prefix of `parse_frequencies`: clear the edge
payloads, then `node.output_frequency(input_frequencies[node.ts_name])` for
every input node. -/
def Graph.seedFrequencies (g : Graph) (inputFrequencies : List (String × FreqStr))
    (s : EState) : Except Err EState :=
  seedLoop g (fun k =>
      match k.tsNameOf with
      | none => .error .attributeError
      | some nm =>
          match (inputFrequencies.find? fun p => p.1 = nm).map (·.2) with
          | none => .error (.missingFrequency nm)
          | some f => nodeEval k .outputFrequency [.freq f]) g.inputNodes
    (clearEdgeInfo g s)

/-- `parse_frequencies(input_frequencies)`: seed, then traverse with the
`output_frequency` method. -/
def Graph.parseFrequencies (g : Graph) (inputFrequencies : List (String × FreqStr))
    (s : EState) : Except Err PyVal × EState × Nat :=
  match g.seedFrequencies inputFrequencies s with
  | .error e => (.error e, clearEdgeInfo g s, 0)
  | .ok s1 => traverseGraph g .outputFrequency 10 s1

/-! ### Concrete graphs used by the verification scenarios -/

/-- The spec scenario graph `Input("A") → Output("X")`. -/
def G1 : Graph := ⟨[⟨0, 1, none, none⟩], [(0, .input "A"), (1, .output "X")]⟩

/-- The table `{"A": [1,2,3]}`. -/
def tbl1 : List (String × List Rat) := [("A", [1, 2, 3])]

/-- A graph whose input node has two successor edges:
`In("A") → Add1`, `In("A") → Add2`, `Add1 → Sub (idx 1)`, `Add2 → Sub (idx 2)`. -/
def G4 : Graph :=
  ⟨[⟨0, 1, none, none⟩, ⟨0, 2, none, none⟩, ⟨1, 3, some 1, none⟩, ⟨2, 3, some 2, none⟩],
   [(0, .input "A"), (1, .add 0), (2, .add 0), (3, .sub 0)]⟩

/-- `In("A") → Sub (idx 1)`, `In("B") → Sub (idx 2)`; `Sub` is the output node. -/
def G5a (c : Rat) : Graph :=
  ⟨[⟨0, 2, some 1, none⟩, ⟨1, 2, some 2, none⟩],
   [(0, .input "A"), (1, .input "B"), (2, .sub c)]⟩

/-- The same graph as `G5a` with the edge list inserted in the other order. -/
def G5b (c : Rat) : Graph :=
  ⟨[⟨1, 2, some 2, none⟩, ⟨0, 2, some 1, none⟩],
   [(0, .input "A"), (1, .input "B"), (2, .sub c)]⟩

/-- `In("A") → Sub (idx 1) → Out("X")`: the lone incoming edge of `Subtract`
carries `input_idx`, so predecessor sorting succeeds and the node receives a
single frequency — its handler's arity check (a `TypeError`) fires inside
the loop. -/
def G7 : Graph :=
  ⟨[⟨0, 1, some 1, none⟩, ⟨1, 2, none, none⟩],
   [(0, .input "A"), (1, .sub 0), (2, .output "X")]⟩

/-- `In("A") → Add ← In("B)`, `Add → Out("X")`: feeding `Add` two differing
frequencies raises `IncompatibleFrequencies` (a `ValueError`) inside the loop. -/
def G7add : Graph :=
  ⟨[⟨0, 2, none, none⟩, ⟨1, 2, none, none⟩, ⟨2, 3, none, none⟩],
   [(0, .input "A"), (1, .input "B"), (2, .add 0), (3, .output "X")]⟩

/-- A cyclic graph whose cycle does not feed the output node:
`In("A") → Out("X")` plus the detached cycle `1 → 2 → 1`. Exactly one node
(the output) lacks successors. -/
def G8c : Graph :=
  ⟨[⟨0, 3, none, none⟩, ⟨1, 2, none, none⟩, ⟨2, 1, none, none⟩],
   [(0, .input "A"), (3, .output "X"), (1, .add 0), (2, .add 0)]⟩

/-- A cyclic graph whose cycle lies on the only path to the output node:
`In("A") → 1`, `1 → 2`, `2 → 1`, `2 → Out("X")`. -/
def G8f : Graph :=
  ⟨[⟨0, 1, none, none⟩, ⟨1, 2, none, none⟩, ⟨2, 1, none, none⟩, ⟨2, 3, none, none⟩],
   [(0, .input "A"), (1, .add 0), (2, .add 0), (3, .output "X")]⟩

/-! ### Helper lemmas -/

theorem pymaxStep_choice (cur x : FreqStr) : pymaxStep cur x = cur ∨ pymaxStep cur x = x := by
  unfold pymaxStep
  split
  · exact Or.inr rfl
  · exact Or.inl rfl

theorem le_pymaxStep_left (cur x : FreqStr) :
    cur.numbervalue ≤ (pymaxStep cur x).numbervalue := by
  unfold pymaxStep FreqStr.pygt
  split
  · next h => simp only [decide_eq_true_eq] at h; omega
  · exact Nat.le_refl _

theorem le_pymaxStep_right (cur x : FreqStr) :
    x.numbervalue ≤ (pymaxStep cur x).numbervalue := by
  unfold pymaxStep FreqStr.pygt
  split
  · exact Nat.le_refl _
  · next h => simp only [decide_eq_true_eq] at h; omega

theorem pymax_mem (fs : List FreqStr) : ∀ f, pymax f fs ∈ f :: fs := by
  induction fs with
  | nil => intro f; simp [pymax]
  | cons a t ih =>
      intro f
      have h1 : pymax f (a :: t) = pymax (pymaxStep f a) t := rfl
      rw [h1]
      rcases List.mem_cons.mp (ih (pymaxStep f a)) with h2 | h2
      · rw [h2]
        rcases pymaxStep_choice f a with h3 | h3 <;> rw [h3] <;> simp
      · exact List.mem_cons_of_mem _ (List.mem_cons_of_mem _ h2)

theorem pymax_ge (fs : List FreqStr) :
    ∀ f x, x ∈ f :: fs → x.numbervalue ≤ (pymax f fs).numbervalue := by
  induction fs with
  | nil =>
      intro f x hx
      rcases List.mem_cons.mp hx with h | h
      · rw [h]; exact Nat.le_refl _
      · simp at h
  | cons a t ih =>
      intro f x hx
      have h1 : pymax f (a :: t) = pymax (pymaxStep f a) t := rfl
      rw [h1]
      have hstep : (pymaxStep f a).numbervalue ≤ (pymax (pymaxStep f a) t).numbervalue :=
        ih (pymaxStep f a) (pymaxStep f a) (List.mem_cons_self _ _)
      rcases List.mem_cons.mp hx with h | h
      · rw [h]; exact Nat.le_trans (le_pymaxStep_left f a) hstep
      · rcases List.mem_cons.mp h with h2 | h2
        · rw [h2]; exact Nat.le_trans (le_pymaxStep_right f a) hstep
        · exact ih (pymaxStep f a) x (List.mem_cons_of_mem _ h2)

theorem pyminStep_choice (cur x : FreqStr) : pyminStep cur x = cur ∨ pyminStep cur x = x := by
  unfold pyminStep
  split
  · exact Or.inr rfl
  · exact Or.inl rfl

theorem pyminStep_le_left (cur x : FreqStr) :
    (pyminStep cur x).numbervalue ≤ cur.numbervalue := by
  unfold pyminStep FreqStr.pylt
  split
  · next h => simp only [decide_eq_true_eq] at h; omega
  · exact Nat.le_refl _

theorem pyminStep_le_right (cur x : FreqStr) :
    (pyminStep cur x).numbervalue ≤ x.numbervalue := by
  unfold pyminStep FreqStr.pylt
  split
  · exact Nat.le_refl _
  · next h => simp only [decide_eq_true_eq] at h; omega

theorem pymin_mem (fs : List FreqStr) : ∀ f, pymin f fs ∈ f :: fs := by
  induction fs with
  | nil => intro f; simp [pymin]
  | cons a t ih =>
      intro f
      have h1 : pymin f (a :: t) = pymin (pyminStep f a) t := rfl
      rw [h1]
      rcases List.mem_cons.mp (ih (pyminStep f a)) with h2 | h2
      · rw [h2]
        rcases pyminStep_choice f a with h3 | h3 <;> rw [h3] <;> simp
      · exact List.mem_cons_of_mem _ (List.mem_cons_of_mem _ h2)

theorem pymin_le (fs : List FreqStr) :
    ∀ f x, x ∈ f :: fs → (pymin f fs).numbervalue ≤ x.numbervalue := by
  induction fs with
  | nil =>
      intro f x hx
      rcases List.mem_cons.mp hx with h | h
      · rw [h]; exact Nat.le_refl _
      · simp at h
  | cons a t ih =>
      intro f x hx
      have h1 : pymin f (a :: t) = pymin (pyminStep f a) t := rfl
      rw [h1]
      have hstep : (pymin (pyminStep f a) t).numbervalue ≤ (pyminStep f a).numbervalue :=
        ih (pyminStep f a) (pyminStep f a) (List.mem_cons_self _ _)
      rcases List.mem_cons.mp hx with h | h
      · rw [h]; exact Nat.le_trans hstep (pyminStep_le_left f a)
      · rcases List.mem_cons.mp h with h2 | h2
        · rw [h2]; exact Nat.le_trans hstep (pyminStep_le_right f a)
        · exact ih (pyminStep f a) x (List.mem_cons_of_mem _ h2)

theorem traverseLoop_rounds_le (g : Graph) (m : Method) (final : Nat) :
    ∀ (fuel : Nat) (s : EState) (found : Option (List PyVal)),
      (traverseLoop g m final fuel s found).2 ≤ fuel := by
  intro fuel
  induction fuel with
  | zero => intro s found; simp [traverseLoop]
  | succ k ih =>
      intro s found
      simp only [traverseLoop]
      split
      · exact Nat.zero_le _
      · split
        · exact Nat.succ_le_succ (Nat.zero_le _)
        · exact Nat.succ_le_succ (ih _ _)

theorem traverseGraph_rounds_le (g : Graph) (m : Method) (maxIter : Nat) (s : EState) :
    (traverseGraph g m maxIter s).2.2 ≤ maxIter := by
  unfold traverseGraph
  split
  · exact Nat.zero_le _
  · next final _ =>
      have h := traverseLoop_rounds_le g m final maxIter s none
      split
      all_goals
        next heq => rw [heq] at h; simpa using h

theorem parseFrequencies_rounds_le (g : Graph) (m : List (String × FreqStr)) (s : EState) :
    (g.parseFrequencies m s).2.2 ≤ 10 := by
  unfold Graph.parseFrequencies
  split
  · exact Nat.zero_le _
  · exact traverseGraph_rounds_le ..

theorem compute_rounds_le (g : Graph) (d : List (String × List Rat)) (s : EState) :
    (g.compute d s).2.2 ≤ 10 := by
  unfold Graph.compute
  split
  · exact Nat.zero_le _
  · exact traverseGraph_rounds_le ..

theorem processNodes_error_shape (g : Graph) (m : Method) (final : Nat) :
    ∀ (l : List Nat) (s : EState) (er : Err),
      processNodes g m final l s = .error er →
      er.errClass = .keyError ∨ er = .missingInput ∨
        ∃ n inputs e, n ∈ l ∧ evalNodeById g m n inputs = .error e ∧
          ((e.errClass = .valueError ∧ er = .nodeEvaluation n e) ∨
           (e.errClass ≠ .valueError ∧ er = e)) := by
  intro l
  induction l with
  | nil => intro s er h; simp [processNodes] at h
  | cons n rest ih =>
      intro s er h
      simp only [processNodes] at h
      split at h
      · next e hg =>
          have he : er = e := (Except.error.inj h).symm
          have hcl : e.errClass = ErrClass.keyError := by
            unfold gatherInputs at hg
            unfold Graph.sortedPredEdges at hg
            split at hg
            · split at hg
              · simp [Except.map] at hg
              · simp [Except.map] at hg; rw [← hg]; rfl
            · simp [Except.map] at hg
          exact Or.inl (he ▸ hcl)
      · split at h
        · exact Or.inr (Or.inl (Except.error.inj h).symm)
        · split at h
          · next e heval =>
              refine Or.inr (Or.inr ⟨n, _, e, List.mem_cons_self _ _, heval, ?_⟩)
              have hw : er = wrapNodeError n e := (Except.error.inj h).symm
              unfold wrapNodeError at hw
              by_cases hc : e.errClass = ErrClass.valueError
              · rw [if_pos hc] at hw; exact Or.inl ⟨hc, hw⟩
              · rw [if_neg hc] at hw; exact Or.inr ⟨hc, hw⟩
          · next res heval =>
              split at h
              · exact absurd h (by simp)
              · split at h
                · next e hupd =>
                    have he : er = e := (Except.error.inj h).symm
                    have hcl : e.errClass = ErrClass.keyError := by
                      unfold updateSuccessorEdgeInformation at hupd
                      unfold Graph.sortedSuccEdges at hupd
                      split at hupd
                      · split at hupd
                        · simp [Except.map] at hupd
                        · simp [Except.map] at hupd; rw [← hupd]; rfl
                      · simp [Except.map] at hupd
                    exact Or.inl (he ▸ hcl)
                · rcases ih _ _ h with h0 | h1 | ⟨n1, inputs1, e1, hmem, he, hcase⟩
                  · exact Or.inl h0
                  · exact Or.inr (Or.inl h1)
                  · exact Or.inr (Or.inr
                      ⟨n1, inputs1, e1, List.mem_cons_of_mem _ hmem, he, hcase⟩)

/-! ### Claim theorems -/

/-- C1 counterexample: on the graph `Input("A") → Output("X")` with the table
`{"A": [1,2,3]}`, `compute` does not return the bare series named "X" — it
returns a singleton Python list wrapping that series (the traversal wraps
`calculation_results` in a list before the final-node check and returns the
list). -/
theorem C1_counterexample :
    (G1.compute tbl1 []).1 = .ok (.pylist [.series ⟨some "X", [1, 2, 3]⟩]) ∧
    (G1.compute tbl1 []).1 ≠ .ok (.series ⟨some "X", [1, 2, 3]⟩) := by
  decide

/-- C1 amended: on the graph `Input("A") → Output("X")`, `compute` with a
table whose column "A" holds `[1,2,3]` returns a one-element list containing
the series named "X" with values `[1,2,3]`. -/
theorem C1_amended :
    (G1.compute tbl1 []).1 = .ok (.pylist [.series ⟨some "X", [1, 2, 3]⟩]) := by
  decide

/-- C2: the frequency order is `D < M < Q < A`, and on every non-empty tuple
the Coarsest handler returns the maximum by this order (an element of the
tuple that dominates every element) while the Finest handler returns the
minimum. -/
theorem C2_coarsest_finest :
    (FreqStr.pylt .D .M = true ∧ FreqStr.pylt .M .Q = true ∧ FreqStr.pylt .Q .A = true) ∧
    (∀ f fs x, x ∈ f :: fs →
      coarsestFrequency (f :: fs) = .ok (pymax f fs) ∧ pymax f fs ∈ f :: fs ∧
        x.numbervalue ≤ (pymax f fs).numbervalue) ∧
    (∀ f fs x, x ∈ f :: fs →
      finestFrequency (f :: fs) = .ok (pymin f fs) ∧ pymin f fs ∈ f :: fs ∧
        (pymin f fs).numbervalue ≤ x.numbervalue) := by
  refine ⟨by decide, ?_, ?_⟩
  · intro f fs x hx
    exact ⟨rfl, pymax_mem fs f, pymax_ge fs f x hx⟩
  · intro f fs x hx
    exact ⟨rfl, pymin_mem fs f, pymin_le fs f x hx⟩

/-- C2 witness: the Coarsest handler on `(M, A, D)`. -/
theorem C2_witness :
    coarsestFrequency [FreqStr.M, FreqStr.A, FreqStr.D] = .ok (pymax .M [.A, .D]) ∧
    pymax FreqStr.M [.A, .D] ∈ [FreqStr.M, FreqStr.A, FreqStr.D] ∧
    FreqStr.D.numbervalue ≤ (pymax FreqStr.M [.A, .D]).numbervalue :=
  C2_coarsest_finest.2.1 .M [.A, .D] .D (by decide)

/-- C3: `parse_frequencies` clears every edge payload before seeding, so its
result is a function of the graph and the input frequency map alone: it is
independent of whatever edge state an earlier pass left behind, a second call
on the state left by the first returns the same value, and the fixpoint loop
runs at most `max_iter = 10` rounds. -/
theorem C3_parse_pure (g : Graph) (m : List (String × FreqStr)) (s s' : EState) :
    (g.parseFrequencies m s).1 = (g.parseFrequencies m s').1 ∧
    (g.parseFrequencies m s).2.2 ≤ 10 ∧
    (g.parseFrequencies m ((g.parseFrequencies m s).2.1)).1 = (g.parseFrequencies m s).1 :=
  ⟨rfl, parseFrequencies_rounds_le g m s, rfl⟩

/-- C3 witness: the purity statement at the scenario graph `G1`. -/
theorem C3_witness :
    (G1.parseFrequencies [("A", .M)] []).1 =
      (G1.parseFrequencies [("A", .M)] [some (.freq .Q), some (.freq .Q)]).1 ∧
    (G1.parseFrequencies [("A", .M)] []).2.2 ≤ 10 ∧
    (G1.parseFrequencies [("A", .M)]
        ((G1.parseFrequencies [("A", .M)] []).2.1)).1 =
      (G1.parseFrequencies [("A", .M)] []).1 :=
  C3_parse_pure G1 [("A", .M)] [] [some (.freq .Q), some (.freq .Q)]

/-- C4 counterexample: in `G4` the input node has two successor edges, but
seeding stages the single result by `zip`, so after the seed step only the
first outgoing edge is populated — the second (edge index 1) still holds
`None`. -/
theorem C4_counterexample :
    (G4.succEdges 0).length = 2 ∧
    G4.seedCompute [("A", [1])] [] =
      .ok [some (.series ⟨some "A", [1]⟩), none, none, none] ∧
    (([some (.series ⟨some "A", ([1] : List Rat)⟩), none, none, none] : EState).getD 1 none)
      = none := by
  decide

/-- C4 amended: during the seed step each input node is invoked with the
externally supplied value and its result is zipped onto the sorted successor
edges — a single result populates only the first outgoing edge, and an input
node with two or more successor edges keeps its remaining edges empty. -/
theorem C4_amended (data : List Rat) :
    G4.seedCompute [("A", data)] [] =
      .ok [some (.series ⟨some "A", data⟩), none, none, none] := rfl

/-- C4 witness: the amended seed result at the concrete table `{"A": [1]}`. -/
theorem C4_witness :
    G4.seedCompute [("A", ([1] : List Rat))] [] =
      .ok [some (.series ⟨some "A", [1]⟩), none, none, none] :=
  C4_amended [1]

/-- C5: `Subtract` is order-sensitive: with the edge carrying A at
`input_idx 1` and the edge carrying B at `input_idx 2`, `compute` produces
the series `A − B − const` (wrapped in the traversal's result list), and the
result is the same for both insertion orders of the edge list. -/
theorem C5_subtract_order (a b : List Rat) (c : Rat) :
    ((G5a c).compute [("A", a), ("B", b)] []).1 =
      .ok (.pylist [.series (seriesSubConst (seriesSub ⟨some "A", a⟩ ⟨some "B", b⟩) c)]) ∧
    ((G5b c).compute [("A", a), ("B", b)] []).1 =
      ((G5a c).compute [("A", a), ("B", b)] []).1 :=
  ⟨rfl, rfl⟩

/-- C5 witness: the subtraction scenario at concrete series. -/
theorem C5_witness :
    ((G5a 7).compute [("A", ([10, 20] : List Rat)), ("B", [1, 2])] []).1 =
      .ok (.pylist [.series (seriesSubConst (seriesSub ⟨some "A", [10, 20]⟩ ⟨some "B", [1, 2]⟩) 7)]) ∧
    ((G5b 7).compute [("A", ([10, 20] : List Rat)), ("B", [1, 2])] []).1 =
      ((G5a 7).compute [("A", [10, 20]), ("B", [1, 2])] []).1 :=
  C5_subtract_order [10, 20] [1, 2] 7

/-- C6: `Downsample(target=Quarterly)` fails with `InvalidAggregation` on an
Annual input and returns Quarterly on a Monthly input; in general, on one
input frequency it fails exactly when the input outranks the target, and
returns the target otherwise. -/
theorem C6_downsample :
    downsampleFrequency .Q [.A] = .error .invalidAggregation ∧
    downsampleFrequency .Q [.M] = .ok .Q ∧
    ∀ f t : FreqStr,
      (t.numbervalue < f.numbervalue →
        downsampleFrequency t [f] = .error .invalidAggregation) ∧
      (f.numbervalue ≤ t.numbervalue → downsampleFrequency t [f] = .ok t) := by
  decide

/-- C6 witness: the failing direction at `f = Annual`, `target = Quarterly`. -/
theorem C6_witness :
    downsampleFrequency .Q [.A] = .error .invalidAggregation :=
  (C6_downsample.2.2 .A .Q).1 (by decide)

/-- C7 counterexample: in `G7` the `Subtract` node has a single predecessor
edge (carrying `input_idx`, so predecessor sorting succeeds), and during the
frequency pass the node's own handler raises its arity `TypeError`;
`_traverse_graph` catches only `ValueError`, so the pass fails with the raw
arity error, not with a `NodeEvaluationError` wrapping the node. -/
theorem C7_counterexample :
    (G7.parseFrequencies [("A", FreqStr.M)] []).1 = .error (.arityTypeError 2 1) ∧
    Err.isNodeEvaluation (.arityTypeError 2 1) = false ∧
    Err.errClass (.arityTypeError 2 1) = .typeError := by
  decide

/-- C7 amended: a failure raised by a node's method during the fixpoint loop
surfaces wrapped as `NodeEvaluationError` with the node's identity exactly
when its Python class is `ValueError` (input-count, incompatible-frequencies,
invalid-aggregation, ...); `TypeError`-class failures (handler arity,
element-type) propagate unwrapped, as do the `KeyError`s raised by edge
sorting before or after a node's method runs. Demonstrated generally on the
round processor and concretely on a wrapped `IncompatibleFrequencies` and an
unwrapped handler arity error. -/
theorem C7_amended :
    (∀ (g : Graph) (m : Method) (final : Nat) (l : List Nat) (s : EState) (er : Err),
        processNodes g m final l s = .error er →
        er.errClass = .keyError ∨ er = .missingInput ∨
          ∃ n inputs e, n ∈ l ∧ evalNodeById g m n inputs = .error e ∧
            ((e.errClass = .valueError ∧ er = .nodeEvaluation n e) ∨
             (e.errClass ≠ .valueError ∧ er = e))) ∧
    (∀ f1 f2 : FreqStr, f1 ≠ f2 →
        (G7add.parseFrequencies [("A", f1), ("B", f2)] []).1 =
          .error (.nodeEvaluation 2 .incompatibleFrequencies)) ∧
    (G7.parseFrequencies [("A", FreqStr.M)] []).1 = .error (.arityTypeError 2 1) :=
  ⟨fun g m final => processNodes_error_shape g m final, by decide, by decide⟩

/-- C7 witness: the wrapped `ValueError` case at `f1 = M`, `f2 = Q`. -/
theorem C7_witness :
    (G7add.parseFrequencies [("A", FreqStr.M), ("B", FreqStr.Q)] []).1 =
      .error (.nodeEvaluation 2 .incompatibleFrequencies) :=
  C7_amended.2.1 .M .Q (by decide)

/-- C8 counterexample: `G8c` is cyclic (edges `1 → 2` and `2 → 1`) and has
exactly one successor-less node, yet both passes succeed — the cycle does not
feed the output node, so the frontier does reach it and the pass does not
fail with `GraphIncomplete`. -/
theorem C8_counterexample :
    G8c.hasEdge 1 2 = true ∧ G8c.hasEdge 2 1 = true ∧
    G8c.outputNode = .ok 3 ∧
    (G8c.parseFrequencies [("A", FreqStr.M)] []).1 = .ok (.pylist [.freq .M]) ∧
    (G8c.compute [("A", [1])] []).1 = .ok (.pylist [.series ⟨some "X", [1]⟩]) ∧
    (G8c.parseFrequencies [("A", FreqStr.M)] []).1 ≠ .error .graphIncomplete := by
  decide

/-- C8 amended: both passes always terminate, running at most
`max_iter = 10` fixpoint rounds; a cyclic graph whose cycle lies on the path
to the output node fails with `GraphIncomplete` (the frontier never reaches
the output node), while a cyclic graph whose cycle is detached from the
output path can succeed. -/
theorem C8_amended :
    (∀ (g : Graph) (m : List (String × FreqStr)) (s : EState),
        (g.parseFrequencies m s).2.2 ≤ 10) ∧
    (∀ (g : Graph) (d : List (String × List Rat)) (s : EState),
        (g.compute d s).2.2 ≤ 10) ∧
    (G8f.hasEdge 1 2 = true ∧ G8f.hasEdge 2 1 = true) ∧
    (G8f.parseFrequencies [("A", FreqStr.M)] []).1 = .error .graphIncomplete ∧
    (G8f.compute [("A", [1])] []).1 = .error .graphIncomplete :=
  ⟨parseFrequencies_rounds_le, compute_rounds_le, by decide, by decide, by decide⟩

/-- C8 witness: the round bound at the cyclic graph `G8f`. -/
theorem C8_witness :
    (G8f.parseFrequencies [("A", FreqStr.M)] []).2.2 ≤ 10 :=
  C8_amended.1 G8f [("A", FreqStr.M)] []

/-- C9 counterexample: `Add(const=5.0)` on the aligned series `[1,2,3]` and
`[10,20,30]` returns `[16,27,38]` (2+20+5 = 27), not the `[16,22,38]` the
claim states. -/
theorem C9_counterexample :
    nodeEval (.add 5) .compute
        [.series ⟨none, [1, 2, 3]⟩, .series ⟨none, [10, 20, 30]⟩] =
      .ok (.series ⟨none, [16, 27, 38]⟩) ∧
    ([16, 27, 38] : List Rat) ≠ [16, 22, 38] := by
  constructor
  · show Except.ok (PyVal.series (seriesAddConst
        (List.foldl seriesAdd ⟨none, [1, 2, 3]⟩ [⟨none, [10, 20, 30]⟩]) 5)) =
      Except.ok (PyVal.series ⟨none, [16, 27, 38]⟩)
    norm_num [List.foldl, seriesAdd, seriesAddConst, combineNames, List.zipWith, List.map]
  · intro h
    simp only [List.cons.injEq] at h
    norm_num at h

/-- C9 amended: `Add(const=5.0)` on the aligned series `[1,2,3]` and
`[10,20,30]` returns the series `[16,27,38]`. -/
theorem C9_amended :
    nodeEval (.add 5) .compute
        [.series ⟨none, [1, 2, 3]⟩, .series ⟨none, [10, 20, 30]⟩] =
      .ok (.series ⟨none, [16, 27, 38]⟩) := by
  show Except.ok (PyVal.series (seriesAddConst
      (List.foldl seriesAdd ⟨none, [1, 2, 3]⟩ [⟨none, [10, 20, 30]⟩]) 5)) =
    Except.ok (PyVal.series ⟨none, [16, 27, 38]⟩)
  norm_num [List.foldl, seriesAdd, seriesAddConst, combineNames, List.zipWith, List.map]

/-- C10: every arity-unconstrained handler fails on an empty input tuple:
`IdenticalFrequencies` without a fixed `n` hits `input_freqs[0]`
(`IndexError`), and `Coarsest` / `Finest` hit Python `max`/`min` of an empty
sequence (`ValueError`); none returns a frequency. -/
theorem C10_empty_handlers :
    identicalFrequencies none [] = .error .indexError ∧
    coarsestFrequency [] = .error .emptySequence ∧
    finestFrequency [] = .error .emptySequence := by
  decide

end CompCalc
